import Mathlib

set_option maxHeartbeats 1000000
set_option linter.unusedVariables false
set_option linter.unnecessarySeqFocus false

/-! Shallow embedding of `src/main.py` (MisterPot/macSimpleParser), a
bounded-concurrency menu scraper.  The pure helpers (`_take_hidden`,
`_take_string_opt`, the `MenuItem(...)` construction inside `_parse_item`)
are translated directly.  The async part (`fetch_menu` dispatching
`_parse_item` under an `asyncio.Semaphore` via `asyncio.gather`) is
modelled as a small-step machine over per-task phases, driven by an
arbitrary schedule of task indices.  External collaborators (the rendered
document behind each URL, navigation success or failure,
`urllib.parse.urljoin`) are parameters gathered in a `Config`. -/

/-- Whitespace predicate of Python `str.strip()` (ASCII whitespace as in CPython). -/
def pyIsSpace (c : Char) : Bool :=
  c = ' ' || c = '\t' || c = '\n' || c = '\r' || c = '\x0b' || c = '\x0c'

/-- Python `str.strip()`: drop leading and trailing whitespace. -/
def pyStrip (s : String) : String :=
  String.mk (((s.data.dropWhile pyIsSpace).reverse.dropWhile pyIsSpace).reverse)

/-- A parsed HTML element as the extractor sees it: only its text content matters. -/
structure Tag where
  text : String
deriving DecidableEq

/-- A parsed document (`BeautifulSoup(page_content, 'html.parser')`), modelled by
the structural-query collaborator it provides: CSS `select` returning the matched
elements in document order. -/
structure Soup where
  select : String → List Tag

/-- BeautifulSoup `select_one`: the first match of `select`, if any. -/
def selectOne (soup : Soup) (selector : String) : Option Tag :=
  (soup.select selector).head?

/-- The `MenuItem` dataclass of `src/main.py` (ten string fields). -/
structure MenuItem where
  name : String
  description : String
  calories : String
  fats : String
  carbs : String
  proteins : String
  unsaturated_fats : String
  sugar : String
  salt : String
  portion : String
deriving DecidableEq

/-- `MacParser._take_hidden`: `'\n'.join(tag.text.strip() for tag in soup.select(selector))`. -/
def take_hidden (soup : Soup) (selector : String) : String :=
  String.intercalate "\n" ((soup.select selector).map (fun tag => pyStrip tag.text))

/-- `MacParser._take_string_opt`: text of `select_one` stripped, else `""`. -/
def take_string_opt (soup : Soup) (selector : String) : String :=
  match selectOne soup selector with
  | some tag => pyStrip tag.text
  | none => ""

/-- Selector for `name` (source line 87). -/
def SEL_NAME : String := "span.cmp-product-details-main__heading-title"

/-- Selector for `description`. -/
def SEL_DESCRIPTION : String := "div.cmp-product-details-main__description"

/-- Selector for `calories` (Python adjacent string literals concatenated). -/
def SEL_CALORIES : String :=
  "li.cmp-nutrition-summary__heading-primary-item:nth-child(1) span[aria-hidden]:not([class])"

/-- Selector for `fats`. -/
def SEL_FATS : String :=
  "li.cmp-nutrition-summary__heading-primary-item:nth-child(2) span[aria-hidden]:not([class])"

/-- Selector for `carbs`. -/
def SEL_CARBS : String :=
  "li.cmp-nutrition-summary__heading-primary-item:nth-child(3) span[aria-hidden]:not([class])"

/-- Selector for `proteins`. -/
def SEL_PROTEINS : String :=
  "li.cmp-nutrition-summary__heading-primary-item:nth-child(4) span[aria-hidden]:not([class])"

/-- Selector for `unsaturated_fats`. -/
def SEL_UNSATURATED_FATS : String :=
  "div.cmp-nutrition-summary__details-column-view-desktop li.label-item:nth-child(1) > span:nth-child(2) span[aria-hidden]:not([class])"

/-- Selector for `sugar`. -/
def SEL_SUGAR : String :=
  "div.cmp-nutrition-summary__details-column-view-desktop li.label-item:nth-child(2) > span:nth-child(2) span[aria-hidden]:not([class])"

/-- Selector for `salt`. -/
def SEL_SALT : String :=
  "div.cmp-nutrition-summary__details-column-view-desktop li.label-item:nth-child(3) > span:nth-child(2) span[aria-hidden]:not([class])"

/-- Selector for `portion`. -/
def SEL_PORTION : String :=
  "div.cmp-nutrition-summary__details-column-view-desktop li.label-item:nth-child(4) > span:nth-child(2) span[aria-hidden]:not([class])"

/-- The `MenuItem(...)` construction inside `_parse_item` (source lines 82-106):
the Field Extractor, a pure total function of the parsed document. -/
def buildMenuItem (soup : Soup) : MenuItem :=
  { name := take_string_opt soup SEL_NAME
    description := take_string_opt soup SEL_DESCRIPTION
    calories := take_hidden soup SEL_CALORIES
    fats := take_hidden soup SEL_FATS
    carbs := take_hidden soup SEL_CARBS
    proteins := take_hidden soup SEL_PROTEINS
    unsaturated_fats := take_hidden soup SEL_UNSATURATED_FATS
    sugar := take_hidden soup SEL_SUGAR
    salt := take_hidden soup SEL_SALT
    portion := take_hidden soup SEL_PORTION }

/-- The two single-mode fields (extracted by `_take_string_opt`), with their selectors. -/
def singleFields : List ((MenuItem → String) × String) :=
  [(MenuItem.name, SEL_NAME), (MenuItem.description, SEL_DESCRIPTION)]

/-- The eight joined-mode nutrition fields (extracted by `_take_hidden`), with their selectors. -/
def joinedFields : List ((MenuItem → String) × String) :=
  [(MenuItem.calories, SEL_CALORIES), (MenuItem.fats, SEL_FATS),
   (MenuItem.carbs, SEL_CARBS), (MenuItem.proteins, SEL_PROTEINS),
   (MenuItem.unsaturated_fats, SEL_UNSATURATED_FATS), (MenuItem.sugar, SEL_SUGAR),
   (MenuItem.salt, SEL_SALT), (MenuItem.portion, SEL_PORTION)]

/-- All ten MenuItem fields with their selectors. -/
def allFields : List ((MenuItem → String) × String) :=
  singleFields ++ joinedFields

lemma joined_field_is_take_hidden (soup : Soup) (f : MenuItem → String) (sel : String)
    (hmem : (f, sel) ∈ joinedFields) :
    f (buildMenuItem soup) = take_hidden soup sel := by
  simp only [joinedFields, List.mem_cons, List.not_mem_nil, or_false, Prod.mk.injEq] at hmem
  rcases hmem with h | h | h | h | h | h | h | h <;>
    (obtain ⟨rfl, rfl⟩ := h; rfl)

lemma single_field_is_take_string_opt (soup : Soup) (f : MenuItem → String) (sel : String)
    (hmem : (f, sel) ∈ singleFields) :
    f (buildMenuItem soup) = take_string_opt soup sel := by
  simp only [singleFields, List.mem_cons, List.not_mem_nil, or_false, Prod.mk.injEq] at hmem
  rcases hmem with h | h <;>
    (obtain ⟨rfl, rfl⟩ := h; rfl)

/-- C5: for every joined-mode field (all 8 nutrition fields, extracted by
`_take_hidden`) and every document, the field value is the whitespace-trimmed
text of each matching node joined with the newline character; in particular
0 matches yields the empty string and 3 matches with texts "10", "20", "30"
yield exactly "10\n20\n30". -/
theorem C5_joined_field_semantics (soup : Soup) (f : MenuItem → String) (sel : String)
    (hmem : (f, sel) ∈ joinedFields) :
    f (buildMenuItem soup) =
      String.intercalate "\n" ((soup.select sel).map (fun tag => pyStrip tag.text)) ∧
    (soup.select sel = [] → f (buildMenuItem soup) = "") ∧
    ((soup.select sel).map Tag.text = ["10", "20", "30"] →
      f (buildMenuItem soup) = "10\n20\n30") := by
  have hmain := joined_field_is_take_hidden soup f sel hmem
  refine ⟨hmain, ?_, ?_⟩
  · intro hnone
    rw [hmain, take_hidden, hnone]
    rfl
  · intro h3
    have hmap : (soup.select sel).map (fun tag => pyStrip tag.text) = ["10", "20", "30"] := by
      have h4 := congrArg (List.map pyStrip) h3
      rw [List.map_map] at h4
      exact h4
    rw [hmain, take_hidden, hmap]
    rfl

/-- C6: for every single-mode field (`name` and `description`, extracted by
`_take_string_opt`) and every document: if at least one node matches, the
value is the first match's text stripped of leading and trailing whitespace;
if no node matches, the value is the empty string. -/
theorem C6_single_field_semantics (soup : Soup) (f : MenuItem → String) (sel : String)
    (hmem : (f, sel) ∈ singleFields) :
    (soup.select sel = [] → f (buildMenuItem soup) = "") ∧
    (∀ tag rest, soup.select sel = tag :: rest → f (buildMenuItem soup) = pyStrip tag.text) := by
  have hmain := single_field_is_take_string_opt soup f sel hmem
  constructor
  · intro hnone
    rw [hmain, take_string_opt, selectOne, hnone]
    rfl
  · intro tag rest hcons
    rw [hmain, take_string_opt, selectOne, hcons]
    rfl

/-- C7: the Field Extractor never fails: `buildMenuItem` is a total function
producing all 10 fields as strings for every document, and for every field
the absence of a DOM match degrades the field to `""` rather than raising. -/
theorem C7_field_degrades_to_empty (soup : Soup) (f : MenuItem → String) (sel : String)
    (hmem : (f, sel) ∈ allFields) (hnone : soup.select sel = []) :
    f (buildMenuItem soup) = "" := by
  rw [allFields, List.mem_append] at hmem
  rcases hmem with h | h
  · exact (C6_single_field_semantics soup f sel h).1 hnone
  · exact (C5_joined_field_semantics soup f sel h).2.1 hnone

/-- Concrete document for the C5 witness: three calorie nodes. -/
def soupJoined : Soup :=
  ⟨fun s => if s = SEL_CALORIES then [⟨"10"⟩, ⟨"20"⟩, ⟨"30"⟩] else []⟩

/-- Concrete document for the C6 witness: a name node with surrounding whitespace. -/
def soupSingle : Soup :=
  ⟨fun s => if s = SEL_NAME then [⟨"  Big Mac  "⟩] else []⟩

/-- Document with no matches at all, for the C7 witness. -/
def soupEmpty : Soup := ⟨fun _ => []⟩

theorem C5_witness :
    MenuItem.calories (buildMenuItem soupJoined) = "10\n20\n30" :=
  (C5_joined_field_semantics soupJoined MenuItem.calories SEL_CALORIES
    (List.mem_cons_self _ _)).2.2 rfl

theorem C6_witness :
    MenuItem.name (buildMenuItem soupSingle) = "Big Mac" := by
  have h := (C6_single_field_semantics soupSingle MenuItem.name SEL_NAME
    (List.mem_cons_self _ _)).2 ⟨"  Big Mac  "⟩ [] rfl
  rw [h]
  decide

theorem C7_witness :
    MenuItem.sugar (buildMenuItem soupEmpty) = "" :=
  C7_field_degrades_to_empty soupEmpty MenuItem.sugar SEL_SUGAR
    (by simp [allFields, singleFields, joinedFields]) rfl

/-! The concurrency model.  `fetch_menu` (source lines 61-74) creates one
`_parse_item` coroutine per extracted link, shares one
`asyncio.Semaphore(max_sim_pages)` among them, and awaits `asyncio.gather`.
Each task is modelled by a phase that records how far its `_parse_item`
body has run; a run of the event loop is an arbitrary finite schedule of
task indices, each schedule entry advancing the chosen task by one atomic
step (one await point of the source), if it can move. -/

/-- How far one `_parse_item` invocation has progressed.
`pending`: created, waiting on `async with semaphore`.
`acquired`: semaphore held, `new_page` not yet done.
`opened`: page created.
`navigated`: `page.goto` returned.
`gotContent`: `page.content()` returned (parsing and extraction are
synchronous from here).
`closed item`: `page.close()` done, `item` built.
`done item`: returned, semaphore released by the `async with` exit.
`failed`: `page.goto` raised; the `async with` exit released the semaphore,
but `page.close()` was never reached. -/
inductive Phase where
  | pending
  | acquired
  | opened
  | navigated
  | gotContent
  | closed (item : MenuItem)
  | done (item : MenuItem)
  | failed
deriving DecidableEq

/-- Bookkeeping for one task: its phase plus whether its render target
(page) has been created and whether it has been closed. -/
structure TaskRec where
  phase : Phase
  pageCreated : Bool
  pageClosed : Bool
deriving DecidableEq

/-- External collaborators of the pipeline: whether `page.goto url` raises,
what document the renderer produces for a url, and `urllib.parse.urljoin`. -/
structure Config where
  navFails : String → Bool
  docOf : String → Soup
  urljoin : String → String → String

/-- A task holds the semaphore exactly between the `async with` entry and exit. -/
def phaseHolds : Phase → Bool
  | .acquired => true
  | .opened => true
  | .navigated => true
  | .gotContent => true
  | .closed _ => true
  | _ => false

/-- Number of tasks currently holding the semaphore (equivalently, the
number of permits taken from `asyncio.Semaphore(K)`). -/
def activeCount (ts : List TaskRec) : Nat :=
  ts.countP (fun r => phaseHolds r.phase)

/-- Advance task `i` by one step, if it can move.  A `pending` task moves
only when a semaphore permit is free (`activeCount < K`); `failed` and
`done` tasks never move again. -/
def stepTask (cfg : Config) (K : Nat) (urls : List String) (ts : List TaskRec) (i : Nat) :
    List TaskRec :=
  match ts[i]? with
  | none => ts
  | some r =>
    match r.phase with
    | .pending =>
        if activeCount ts < K then ts.set i { r with phase := .acquired } else ts
    | .acquired => ts.set i { r with phase := .opened, pageCreated := true }
    | .opened =>
        match urls[i]? with
        | none => ts
        | some u =>
            if cfg.navFails u then ts.set i { r with phase := .failed }
            else ts.set i { r with phase := .navigated }
    | .navigated => ts.set i { r with phase := .gotContent }
    | .gotContent =>
        match urls[i]? with
        | none => ts
        | some u =>
            ts.set i
              { r with phase := .closed (buildMenuItem (cfg.docOf u)), pageClosed := true }
    | .closed item => ts.set i { r with phase := .done item }
    | .done _ => ts
    | .failed => ts

/-- Initial state: one pending task per url, in input order (the list
comprehension in `fetch_menu` submits them in listing order). -/
def initTasks (urls : List String) : List TaskRec :=
  urls.map (fun _ => ⟨Phase.pending, false, false⟩)

/-- Run the event loop under schedule `sched` (each entry names the task
stepped next). -/
def run (cfg : Config) (K : Nat) (urls : List String) (sched : List Nat) : List TaskRec :=
  sched.foldl (stepTask cfg K urls) (initTasks urls)

/-- `asyncio.gather` result collection: once every task has returned, the
results are read off positionally, in submission order. `none` while some
task has not returned. -/
def gatherOk (ts : List TaskRec) : Option (List MenuItem) :=
  ts.mapM (fun r => match r.phase with
    | .done item => some item
    | _ => none)

/-- Whether some task has raised. -/
def anyFailed (ts : List TaskRec) : Bool :=
  ts.any (fun r => match r.phase with
    | .failed => true
    | _ => false)

/-- What `await asyncio.gather(...)` delivers to `fetch_menu`'s caller:
with the default `return_exceptions=False`, the first task failure makes
`gather` re-raise it; otherwise the value list in submission order once all
tasks are done; `none` while the batch is still in flight. -/
def fetchResult (ts : List TaskRec) : Option (Except String (List MenuItem)) :=
  if anyFailed ts then some (Except.error "NavigationError")
  else (gatherOk ts).map Except.ok

/-- A node of the listing page as `fetch_menu` consumes it: its attributes. -/
structure LinkTag where
  attrs : List (String × String)
deriving DecidableEq

/-- Attribute lookup (`link_item.attrs`), first binding wins. -/
def getAttr (t : LinkTag) (name : String) : Option (String) :=
  (t.attrs.find? (fun p => p.fst = name)).map (fun p => p.snd)

/-- Split a string into space-separated tokens (structural recursion over
the character list, so it evaluates by kernel reduction). -/
def splitTokensAux : List Char → List Char → List String
  | [], acc => [String.mk acc.reverse]
  | c :: rest, acc =>
      if c = ' ' then String.mk acc.reverse :: splitTokensAux rest []
      else splitTokensAux rest (c :: acc)

/-- Tokens of an HTML `class` attribute value. -/
def splitTokens (s : String) : List String :=
  splitTokensAux s.data []

/-- BeautifulSoup class matching: the `class` attribute is a
whitespace-separated token list and `find_all(attrs=...)` matches a tag
whose tokens contain the requested class. -/
def hasClass (t : LinkTag) (cls : String) : Bool :=
  match getAttr t "class" with
  | some v => (splitTokens v).contains cls
  | none => false

/-- `soup.find_all(attrs=...)` filtered on a class marker, in document order. -/
def find_all_class (listing : List LinkTag) (cls : String) : List LinkTag :=
  listing.filter (fun t => hasClass t cls)

/-- `MacParser.BASE_URL`. -/
def BASE_URL : String := "https://www.mcdonalds.com"

/-- The class marker `fetch_menu` selects listing links by. -/
def catMarker : String := "cmp-category__item-link"

/-- Building one task argument inside the list comprehension of `fetch_menu`:
`urljoin(BASE_URL, link_item.attrs['href'])`.  A missing `href` key raises
`KeyError` (Python dict subscript), modelled as `Except.error`. -/
def linkTask (cfg : Config) (l : LinkTag) : Except String String :=
  match getAttr l "href" with
  | some h => Except.ok (cfg.urljoin BASE_URL h)
  | none => Except.error "KeyError: href"

/-- The synchronous head of `fetch_menu`: select the listing links and build
the item URL list.  This happens while building the coroutine list, before
`asyncio.gather` starts, hence before any item page is navigated. -/
def fetch_menu_links (cfg : Config) (listing : List LinkTag) : Except String (List String) :=
  (find_all_class listing catMarker).mapM (linkTask cfg)

/-- `fetch_menu` end to end: extract the urls (raising `KeyError` if an
`href` is missing, before any task runs), then run the scheduled batch. -/
def fetch_menu (cfg : Config) (K : Nat) (listing : List LinkTag) (sched : List Nat) :
    Except String (List TaskRec) :=
  (fetch_menu_links cfg listing).map (fun urls => run cfg K urls sched)

lemma one_le_countP {α : Type} {p : α → Bool} {ts : List α} {i : Nat} {r : α}
    (hi : ts[i]? = some r) (hp : p r = true) : 1 ≤ ts.countP p := by
  obtain ⟨hlt, hg⟩ := List.getElem?_eq_some_iff.mp hi
  exact List.countP_pos_iff.mpr ⟨r, hg ▸ List.getElem_mem hlt, hp⟩

lemma mapM_option_some {α β : Type} (f : α → Option β) :
    ∀ (xs : List α) (ys : List β), xs.mapM f = some ys →
      ys.length = xs.length ∧
      ∀ (i : Nat) (x : α), xs[i]? = some x → ∃ y, f x = some y ∧ ys[i]? = some y := by
  intro xs
  induction xs with
  | nil =>
    intro ys h
    simp only [List.mapM_nil] at h
    cases h
    exact ⟨rfl, by simp⟩
  | cons a tl ih =>
    intro ys h
    rw [List.mapM_cons] at h
    rcases ha : f a with _ | b <;> rw [ha] at h
    · simp at h
    rcases htl : tl.mapM f with _ | bs <;> rw [htl] at h
    · simp at h
    simp only [Option.bind_eq_bind, Option.some_bind, Option.pure_def, Option.some.injEq] at h
    subst h
    obtain ⟨hlen, hidx⟩ := ih bs htl
    refine ⟨by simp [hlen], ?_⟩
    intro i x hx
    cases i with
    | zero =>
      simp only [List.getElem?_cons_zero, Option.some.injEq] at hx
      subst hx
      exact ⟨b, ha, by simp⟩
    | succ n =>
      simp only [List.getElem?_cons_succ] at hx ⊢
      exact hidx n x hx

lemma mapM_except_ok {ε α β : Type} (f : α → Except ε β) :
    ∀ (xs : List α) (ys : List β), xs.mapM f = Except.ok ys →
      ys.length = xs.length ∧
      ∀ (i : Nat) (x : α), xs[i]? = some x → ∃ y, f x = Except.ok y ∧ ys[i]? = some y := by
  intro xs
  induction xs with
  | nil =>
    intro ys h
    simp only [List.mapM_nil] at h
    cases h
    exact ⟨rfl, by simp⟩
  | cons a tl ih =>
    intro ys h
    rw [List.mapM_cons] at h
    rcases ha : f a with e | b <;> rw [ha] at h
    · exact absurd h (by intro hc; cases hc)
    rcases htl : tl.mapM f with e | bs <;> rw [htl] at h
    · exact absurd h (by intro hc; cases hc)
    have hcons : Except.ok (ε := ε) (b :: bs) = Except.ok ys := h
    cases hcons
    obtain ⟨hlen, hidx⟩ := ih bs htl
    refine ⟨by simp [hlen], ?_⟩
    intro i x hx
    cases i with
    | zero =>
      simp only [List.getElem?_cons_zero, Option.some.injEq] at hx
      subst hx
      exact ⟨b, ha, by simp⟩
    | succ n =>
      simp only [List.getElem?_cons_succ] at hx ⊢
      exact hidx n x hx

lemma stepTask_length (cfg : Config) (K : Nat) (urls : List String) (ts : List TaskRec)
    (i : Nat) : (stepTask cfg K urls ts i).length = ts.length := by
  rcases hi : ts[i]? with _ | r
  · simp [stepTask, hi]
  rcases r with ⟨ph, pc, cl⟩
  cases ph <;> simp only [stepTask, hi] <;>
    (try (rcases hu : urls[i]? with _ | u <;> simp only [hu]))
  all_goals try split
  all_goals simp [List.length_set]

lemma activeCount_step_le (cfg : Config) (K : Nat) (urls : List String) (ts : List TaskRec)
    (i : Nat) (h : activeCount ts ≤ K) : activeCount (stepTask cfg K urls ts i) ≤ K := by
  rcases hi : ts[i]? with _ | r
  · simpa [stepTask, hi] using h
  obtain ⟨hlt, hg⟩ := List.getElem?_eq_some_iff.mp hi
  rcases r with ⟨ph, pc, cl⟩
  have hset : ∀ r' : TaskRec,
      activeCount (ts.set i r') =
        (activeCount ts - if phaseHolds ph then 1 else 0) +
          if phaseHolds r'.phase then 1 else 0 := by
    intro r'
    have := List.countP_set (fun r => phaseHolds r.phase) ts i r' hlt
    rw [hg] at this
    exact this
  cases ph
  case pending =>
    simp only [stepTask, hi]
    split
    · next hcnt => rw [hset]; simp [phaseHolds]; omega
    · exact h
  case acquired =>
    have hone : 1 ≤ activeCount ts := one_le_countP hi (by simp [phaseHolds])
    simp only [stepTask, hi]
    rw [hset]
    simp only [phaseHolds, if_true]
    omega
  case opened =>
    have hone : 1 ≤ activeCount ts := one_le_countP hi (by simp [phaseHolds])
    simp only [stepTask, hi]
    rcases hu : urls[i]? with _ | u <;> simp only [hu]
    · exact h
    split <;> rw [hset] <;> simp [phaseHolds] <;> omega
  case navigated =>
    have hone : 1 ≤ activeCount ts := one_le_countP hi (by simp [phaseHolds])
    simp only [stepTask, hi]
    rw [hset]
    simp only [phaseHolds, if_true]
    omega
  case gotContent =>
    have hone : 1 ≤ activeCount ts := one_le_countP hi (by simp [phaseHolds])
    simp only [stepTask, hi]
    rcases hu : urls[i]? with _ | u <;> simp only [hu]
    · exact h
    rw [hset]
    simp only [phaseHolds, if_true]
    omega
  case closed item =>
    simp only [stepTask, hi]
    rw [hset]
    simp [phaseHolds]
    omega
  case done item =>
    simpa [stepTask, hi] using h
  case failed =>
    simpa [stepTask, hi] using h

/-- Relation between a task's phase and its page bookkeeping: the page exists
from `new_page` on, and is marked closed exactly from the `page.close()` step
on.  A `failed` task has a created page that was never closed (no
`try/finally` around `page.goto` in the source). -/
def flagsOk (r : TaskRec) : Prop :=
  match r.phase with
  | .pending => r.pageCreated = false ∧ r.pageClosed = false
  | .acquired => r.pageCreated = false ∧ r.pageClosed = false
  | .opened => r.pageCreated = true ∧ r.pageClosed = false
  | .navigated => r.pageCreated = true ∧ r.pageClosed = false
  | .gotContent => r.pageCreated = true ∧ r.pageClosed = false
  | .failed => r.pageCreated = true ∧ r.pageClosed = false
  | .closed _ => r.pageCreated = true ∧ r.pageClosed = true
  | .done _ => r.pageCreated = true ∧ r.pageClosed = true

/-- Full invariant of task `i`: page bookkeeping is consistent with the phase,
a built item is exactly the extraction of the rendered document of url `i`,
and a failure can only come from `page.goto` raising on url `i`. -/
def taskInv (cfg : Config) (urls : List String) (i : Nat) (r : TaskRec) : Prop :=
  flagsOk r ∧
  (∀ item, (r.phase = .closed item ∨ r.phase = .done item) →
    ∃ u, urls[i]? = some u ∧ item = buildMenuItem (cfg.docOf u)) ∧
  (r.phase = .failed → ∃ u, urls[i]? = some u ∧ cfg.navFails u = true)

/-- The invariant, for every task of a state. -/
def allInv (cfg : Config) (urls : List String) (ts : List TaskRec) : Prop :=
  ∀ i r, ts[i]? = some r → taskInv cfg urls i r

lemma allInv_set_of {cfg : Config} {urls : List String} {ts : List TaskRec}
    (h : allInv cfg urls ts) (j : Nat) (r' : TaskRec)
    (hr' : taskInv cfg urls j r') : allInv cfg urls (ts.set j r') := by
  intro i r hir
  rw [List.getElem?_set] at hir
  split at hir
  · next hji =>
    subst hji
    split at hir
    · cases hir
      exact hr'
    · cases hir
  · exact h i r hir

lemma allInv_init (cfg : Config) (urls : List String) :
    allInv cfg urls (initTasks urls) := by
  intro i r hir
  rw [initTasks, List.getElem?_map] at hir
  rcases hu : urls[i]? with _ | u <;> rw [hu] at hir
  · cases hir
  · cases hir
    refine ⟨⟨rfl, rfl⟩, ?_, ?_⟩
    · intro item hitem
      rcases hitem with h' | h' <;> cases h'
    · intro h'
      cases h'

lemma allInv_step (cfg : Config) (K : Nat) (urls : List String) (ts : List TaskRec)
    (j : Nat) (h : allInv cfg urls ts) :
    allInv cfg urls (stepTask cfg K urls ts j) := by
  rcases hj : ts[j]? with _ | rj
  · simpa only [stepTask, hj] using h
  obtain ⟨hflags, hitem, hfail⟩ := h j rj hj
  rcases rj with ⟨ph, pc, cl⟩
  cases ph
  case pending =>
    obtain ⟨hpc, hcl⟩ := hflags
    simp only [stepTask, hj]
    split
    · refine allInv_set_of h j _ ⟨⟨hpc, hcl⟩, ?_, ?_⟩
      · intro item h'
        rcases h' with h' | h' <;> cases h'
      · intro h'
        cases h'
    · exact h
  case acquired =>
    obtain ⟨hpc, hcl⟩ := hflags
    simp only [stepTask, hj]
    refine allInv_set_of h j _ ⟨⟨rfl, hcl⟩, ?_, ?_⟩
    · intro item h'
      rcases h' with h' | h' <;> cases h'
    · intro h'
      cases h'
  case opened =>
    obtain ⟨hpc, hcl⟩ := hflags
    simp only [stepTask, hj]
    rcases hu : urls[j]? with _ | u <;> simp only [hu]
    · exact h
    split
    · next hnav =>
      refine allInv_set_of h j _ ⟨⟨hpc, hcl⟩, ?_, ?_⟩
      · intro item h'
        rcases h' with h' | h' <;> cases h'
      · intro _
        exact ⟨u, hu, hnav⟩
    · refine allInv_set_of h j _ ⟨⟨hpc, hcl⟩, ?_, ?_⟩
      · intro item h'
        rcases h' with h' | h' <;> cases h'
      · intro h'
        cases h'
  case navigated =>
    obtain ⟨hpc, hcl⟩ := hflags
    simp only [stepTask, hj]
    refine allInv_set_of h j _ ⟨⟨hpc, hcl⟩, ?_, ?_⟩
    · intro item h'
      rcases h' with h' | h' <;> cases h'
    · intro h'
      cases h'
  case gotContent =>
    obtain ⟨hpc, hcl⟩ := hflags
    simp only [stepTask, hj]
    rcases hu : urls[j]? with _ | u <;> simp only [hu]
    · exact h
    refine allInv_set_of h j _ ⟨⟨hpc, rfl⟩, ?_, ?_⟩
    · intro item h'
      have hem : item = buildMenuItem (cfg.docOf u) := by
        rcases h' with h' | h' <;> cases h' <;> rfl
      exact ⟨u, hu, hem⟩
    · intro h'
      cases h'
  case closed item =>
    obtain ⟨hpc, hcl⟩ := hflags
    simp only [stepTask, hj]
    refine allInv_set_of h j _ ⟨⟨hpc, hcl⟩, ?_, ?_⟩
    · intro item' h'
      have hem : item' = item := by
        rcases h' with h' | h' <;> cases h' <;> rfl
      subst hem
      exact hitem item' (Or.inl rfl)
    · intro h'
      cases h'
  case done item =>
    simpa only [stepTask, hj] using h
  case failed =>
    simpa only [stepTask, hj] using h

lemma run_preserve (cfg : Config) (K : Nat) (urls : List String)
    (P : List TaskRec → Prop)
    (hstep : ∀ ts j, P ts → P (stepTask cfg K urls ts j)) :
    ∀ (sched : List Nat) (ts : List TaskRec),
      P ts → P (sched.foldl (stepTask cfg K urls) ts) := by
  intro sched
  induction sched with
  | nil => intro ts h; exact h
  | cons j tl ih =>
    intro ts h
    exact ih _ (hstep ts j h)

lemma length_run (cfg : Config) (K : Nat) (urls : List String) (sched : List Nat) :
    (run cfg K urls sched).length = urls.length := by
  have := run_preserve cfg K urls (fun ts => ts.length = urls.length)
    (fun ts j h => by
      show (stepTask cfg K urls ts j).length = urls.length
      rw [stepTask_length]; exact h)
    sched (initTasks urls) (by simp [initTasks])
  exact this

lemma allInv_run (cfg : Config) (K : Nat) (urls : List String) (sched : List Nat) :
    allInv cfg urls (run cfg K urls sched) :=
  run_preserve cfg K urls (allInv cfg urls)
    (fun ts j h => allInv_step cfg K urls ts j h)
    sched (initTasks urls) (allInv_init cfg urls)

lemma activeCount_run_le (cfg : Config) (K : Nat) (urls : List String) (sched : List Nat) :
    activeCount (run cfg K urls sched) ≤ K := by
  refine run_preserve cfg K urls (fun ts => activeCount ts ≤ K)
    (fun ts j h => activeCount_step_le cfg K urls ts j h)
    sched (initTasks urls) ?_
  have : activeCount (initTasks urls) = 0 := by
    rw [activeCount, initTasks, List.countP_map]
    simp [phaseHolds, Function.comp]
  omega

/-- Once `gather` has collected a result list, that list is exactly the
extraction of each input url's rendered document, positionally. -/
lemma run_gatherOk_eq (cfg : Config) (K : Nat) (urls : List String) (sched : List Nat)
    (l : List MenuItem) (h : gatherOk (run cfg K urls sched) = some l) :
    l = urls.map (fun u => buildMenuItem (cfg.docOf u)) := by
  obtain ⟨hlen, hidx⟩ := mapM_option_some _ (run cfg K urls sched) l h
  have hrunlen := length_run cfg K urls sched
  apply List.ext_getElem?
  intro n
  rcases hn : (run cfg K urls sched)[n]? with _ | r
  · rw [List.getElem?_eq_none_iff] at hn
    have h1 : l[n]? = none := by
      rw [List.getElem?_eq_none_iff]
      omega
    have h2 : (urls.map (fun u => buildMenuItem (cfg.docOf u)))[n]? = none := by
      rw [List.getElem?_eq_none_iff, List.length_map]
      omega
    rw [h1, h2]
  · obtain ⟨y, hy, hln⟩ := hidx n r hn
    have hinv := allInv_run cfg K urls sched n r hn
    have hph : r.phase = Phase.done y := by
      rcases hr : r.phase with _ | _ | _ | _ | _ | item | item | _ <;> rw [hr] at hy <;>
        cases hy <;> rfl
    obtain ⟨u, hu, hitem⟩ := hinv.2.1 y (Or.inr hph)
    rw [hln, List.getElem?_map, hu, hitem]
    rfl

/-- Collaborators where every navigation succeeds, every page renders to a
document with no selector matches, and url resolution is the identity on the
href. -/
def cfgOk : Config :=
  ⟨fun _ => false, fun _ => soupEmpty, fun _ href => href⟩

/-- Collaborators where every `page.goto` raises. -/
def cfgNavFail : Config :=
  ⟨fun _ => true, fun _ => soupEmpty, fun _ href => href⟩

/-- The MenuItem extracted from a document with no matches: all fields empty. -/
def emptyItem : MenuItem := buildMenuItem soupEmpty

/-- A schedule that drives two tasks to completion one after the other
(each `_parse_item` body takes six steps). -/
def schedTwo : List Nat := [0, 0, 0, 0, 0, 0, 1, 1, 1, 1, 1, 1]

/-- C1: for every list of N item URLs and every concurrency limit K with
1 ≤ K ≤ N, once the batch has completed (`gatherOk` returns a list), the
element at position i of the result is the MenuItem extracted from the
document rendered for the URL at position i of the input — for every
schedule, i.e. regardless of completion order. -/
theorem C1_order_preservation (cfg : Config) (K : Nat) (urls : List String) (sched : List Nat)
    (hK1 : 1 ≤ K) (hKN : K ≤ urls.length) (l : List MenuItem)
    (hdone : gatherOk (run cfg K urls sched) = some l) :
    ∀ (i : Nat) (u : String), urls[i]? = some u →
      l[i]? = some (buildMenuItem (cfg.docOf u)) := by
  intro i u hu
  rw [run_gatherOk_eq cfg K urls sched l hdone, List.getElem?_map, hu]
  rfl

theorem C1_witness :
    ([emptyItem, emptyItem] : List MenuItem)[0]? = some (buildMenuItem (cfgOk.docOf "a")) :=
  C1_order_preservation cfgOk 1 ["a", "b"] schedTwo (by decide) (by decide)
    [emptyItem, emptyItem] (by rfl) 0 "a" rfl

/-- C4: at no instant of any run with limit K ≥ 1 do more than K
`_parse_item` invocations hold the semaphore (i.e. are past the
`async with semaphore` entry and before its exit); every reachable instant
is the end state of some schedule, so quantifying over all schedules covers
all instants. -/
theorem C4_concurrency_bound (cfg : Config) (K : Nat) (urls : List String)
    (sched : List Nat) (hK : 1 ≤ K) :
    activeCount (run cfg K urls sched) ≤ K :=
  activeCount_run_le cfg K urls sched

theorem C4_witness :
    1 ≤ 2 ∧ activeCount (run cfgOk 2 ["a", "b", "c"] [0, 1, 2, 0, 1]) ≤ 2 :=
  ⟨by decide, C4_concurrency_bound cfgOk 2 ["a", "b", "c"] [0, 1, 2, 0, 1] (by decide)⟩

/-- C3: a navigation failure in a single `_parse_item` is not caught inside
it: a `failed` task can only arise from `page.goto` raising on that task's
url, and as soon as any task has failed, `fetch_menu`'s `gather` delivers
the error to the caller (never a result list), aborting the whole run. -/
theorem C3_navigation_failure_aborts (cfg : Config) (K : Nat) (urls : List String)
    (sched : List Nat) (i : Nat) (r : TaskRec)
    (hr : (run cfg K urls sched)[i]? = some r) (hfail : r.phase = Phase.failed) :
    (∃ u, urls[i]? = some u ∧ cfg.navFails u = true) ∧
    fetchResult (run cfg K urls sched) = some (Except.error "NavigationError") := by
  have hinv := allInv_run cfg K urls sched i r hr
  refine ⟨hinv.2.2 hfail, ?_⟩
  have hany : anyFailed (run cfg K urls sched) = true := by
    rw [anyFailed, List.any_eq_true]
    obtain ⟨hlt, hg⟩ := List.getElem?_eq_some_iff.mp hr
    refine ⟨r, hg ▸ List.getElem_mem hlt, ?_⟩
    rw [hfail]
  simp [fetchResult, hany]

theorem C3_witness :
    (∃ u, (["a"] : List String)[0]? = some u ∧ cfgNavFail.navFails u = true) ∧
    fetchResult (run cfgNavFail 1 ["a"] [0, 0, 0]) = some (Except.error "NavigationError") :=
  C3_navigation_failure_aborts cfgNavFail 1 ["a"] [0, 0, 0] 0
    ⟨Phase.failed, true, false⟩ (by decide) rfl

/-- C2 as stated is FALSE on the code: `page.close()` is not in a
`try/finally`, so when `page.goto` raises, the created render target is
never closed.  Concretely: one url whose navigation fails, schedule
[0,0,0]; the task ends `failed` with `pageCreated = true` and
`pageClosed = false` — an exit path that does not close the page. -/
theorem C2_counterexample :
    (run cfgNavFail 1 ["a"] [0, 0, 0])[0]? =
      some { phase := Phase.failed, pageCreated := true, pageClosed := false } := by
  decide

/-- C2 amended: the render target is closed on the success exit path (a
task that returned its MenuItem has created and closed its page), but on
the navigation-failure exit path the created page is NOT closed (it
leaks), for every run. -/
theorem C2_page_close_per_path (cfg : Config) (K : Nat) (urls : List String)
    (sched : List Nat) (i : Nat) (r : TaskRec)
    (hr : (run cfg K urls sched)[i]? = some r) :
    (∀ item, r.phase = Phase.done item → r.pageCreated = true ∧ r.pageClosed = true) ∧
    (r.phase = Phase.failed → r.pageCreated = true ∧ r.pageClosed = false) := by
  obtain ⟨hflags, -, -⟩ := allInv_run cfg K urls sched i r hr
  rcases r with ⟨ph, pc, cl⟩
  constructor
  · intro item hph
    dsimp only at hph
    subst hph
    exact hflags
  · intro hph
    dsimp only at hph
    subst hph
    exact hflags

theorem C2_witness :
    (⟨Phase.done emptyItem, true, true⟩ : TaskRec).pageCreated = true ∧
    (⟨Phase.done emptyItem, true, true⟩ : TaskRec).pageClosed = true :=
  (C2_page_close_per_path cfgOk 1 ["a"] [0, 0, 0, 0, 0, 0] 0
    ⟨Phase.done emptyItem, true, true⟩ (by decide)).1 emptyItem rfl

/-- C8: the concurrency limit never affects the content or order of a
completed batch: a run with K ≥ N and a run with any 1 ≤ K' ≤ N (under any
two schedules) that both complete produce the same result list. -/
theorem C8_limit_independent_output (cfg : Config) (urls : List String)
    (K K' : Nat) (sched sched' : List Nat)
    (hK : urls.length ≤ K) (hK'1 : 1 ≤ K') (hK'2 : K' ≤ urls.length)
    (l l' : List MenuItem)
    (h1 : gatherOk (run cfg K urls sched) = some l)
    (h2 : gatherOk (run cfg K' urls sched') = some l') : l = l' := by
  rw [run_gatherOk_eq cfg K urls sched l h1, run_gatherOk_eq cfg K' urls sched' l' h2]

theorem C8_witness : ([emptyItem] : List MenuItem) = [emptyItem] :=
  C8_limit_independent_output cfgOk ["a"] 3 1 [0, 0, 0, 0, 0, 0] [0, 0, 0, 0, 0, 0]
    (by decide) (by decide) (by decide) [emptyItem] [emptyItem] (by rfl) (by rfl)

lemma mapM_linkTask_error (cfg : Config) :
    ∀ (links : List LinkTag), (∃ l ∈ links, getAttr l "href" = none) →
      links.mapM (linkTask cfg) = Except.error "KeyError: href" := by
  intro links
  induction links with
  | nil =>
    rintro ⟨l, hl, -⟩
    cases hl
  | cons a tl ih =>
    rintro ⟨l, hl, hnone⟩
    rw [List.mapM_cons]
    rcases List.mem_cons.mp hl with rfl | hltl
    · simp only [linkTask, hnone]
      rfl
    · rcases ha : getAttr a "href" with _ | hrefv
      · simp only [linkTask, ha]
        rfl
      · have htl := ih ⟨l, hltl, hnone⟩
        simp only [linkTask, ha, htl]
        rfl

/-- C9: if any listing node matching the category-item-link class marker has
no `href` attribute, `fetch_menu` raises the key-lookup error while building
the task list — the returned value is the `KeyError`, and the scheduled batch
is never started (so no item page is navigated). -/
theorem C9_missing_href_aborts (cfg : Config) (K : Nat) (listing : List LinkTag)
    (sched : List Nat)
    (h : ∃ l ∈ find_all_class listing catMarker, getAttr l "href" = none) :
    fetch_menu cfg K listing sched = Except.error "KeyError: href" := by
  rw [fetch_menu, fetch_menu_links, mapM_linkTask_error cfg _ h]
  rfl

/-- A listing with one marked link that has no href. -/
def badListing : List LinkTag := [⟨[("class", "cmp-category__item-link")]⟩]

theorem C9_witness :
    (∃ l ∈ find_all_class badListing catMarker, getAttr l "href" = none) ∧
    fetch_menu cfgOk 1 badListing [] = Except.error "KeyError: href" :=
  ⟨⟨⟨[("class", "cmp-category__item-link")]⟩, by decide, by decide⟩,
    C9_missing_href_aborts cfgOk 1 badListing []
      ⟨⟨[("class", "cmp-category__item-link")]⟩, by decide, by decide⟩⟩

/-- C10: `fetch_menu` deduplicates nothing: a completed batch has exactly one
MenuItem per listing node matching the class marker, positionally in listing
order (each built from that node's resolved href), so nodes with equal hrefs
yield equal records at their respective positions. -/
theorem C10_no_dedup (cfg : Config) (K : Nat) (listing : List LinkTag) (sched : List Nat)
    (urls : List String) (res : List MenuItem)
    (hlinks : fetch_menu_links cfg listing = Except.ok urls)
    (hdone : gatherOk (run cfg K urls sched) = some res) :
    res.length = (find_all_class listing catMarker).length ∧
    (∀ (i : Nat) (lk : LinkTag), (find_all_class listing catMarker)[i]? = some lk →
      ∃ h, getAttr lk "href" = some h ∧
        res[i]? = some (buildMenuItem (cfg.docOf (cfg.urljoin BASE_URL h)))) ∧
    (∀ (i j : Nat) (lka lkb : LinkTag),
      (find_all_class listing catMarker)[i]? = some lka →
      (find_all_class listing catMarker)[j]? = some lkb →
      getAttr lka "href" = getAttr lkb "href" → res[i]? = res[j]?) := by
  rw [fetch_menu_links] at hlinks
  obtain ⟨hulen, huidx⟩ := mapM_except_ok (linkTask cfg) _ urls hlinks
  have hres := run_gatherOk_eq cfg K urls sched res hdone
  have hpos : ∀ (i : Nat) (lk : LinkTag),
      (find_all_class listing catMarker)[i]? = some lk →
      ∃ h, getAttr lk "href" = some h ∧
        res[i]? = some (buildMenuItem (cfg.docOf (cfg.urljoin BASE_URL h))) := by
    intro i lk hlk
    obtain ⟨u, hu, hui⟩ := huidx i lk hlk
    rcases ha : getAttr lk "href" with _ | hrefv
    · simp only [linkTask, ha] at hu
      cases hu
    · simp only [linkTask, ha, Except.ok.injEq] at hu
      refine ⟨hrefv, rfl, ?_⟩
      rw [hres, List.getElem?_map, hui, hu]
      rfl
  refine ⟨?_, hpos, ?_⟩
  · rw [hres, List.length_map, hulen]
  · intro i j lka lkb hi hj heq
    obtain ⟨h1, hh1, hr1⟩ := hpos i lka hi
    obtain ⟨h2, hh2, hr2⟩ := hpos j lkb hj
    rw [hh1, hh2] at heq
    cases heq
    rw [hr1, hr2]

/-- A marked listing link with href "/x". -/
def dupLink : LinkTag := ⟨[("class", "cmp-category__item-link"), ("href", "/x")]⟩

/-- A listing that links the same item page twice. -/
def dupListing : List LinkTag := [dupLink, dupLink]

theorem C10_witness :
    ([emptyItem, emptyItem] : List MenuItem).length =
      (find_all_class dupListing catMarker).length :=
  (C10_no_dedup cfgOk 1 dupListing schedTwo ["/x", "/x"] [emptyItem, emptyItem]
    (by rfl) (by rfl)).1
